import Mathlib

/-!
Shallow embedding of the core of `ESP8266-Admiralty-Tidal-API`
(`src/AdmiraltyTidalApiClient/AdmiraltyTidalApiClient.cpp`):
the event-assembler listener, the ISO-8601 time conversion, the
fixed-capacity tidal-event store and the query operations.

The network / TLS / HTTP plumbing (`FetchTidalEvents`) is out of scope, as
is the external streaming JSON parser: the parser is represented by the
token stream it delivers to the listener, and the listener callbacks are
translated from the source.  Declarations that the sources reference but
that live in files not present under `src/` (the library header with the
`TidalEvent` struct and `MAX_COUNT_TIDAL_EVENTS`, and the TimeLib
functions `makeTime`, `numberOfHours`, `numberOfMinutes` together with the
`tmElements_t` struct) are modelled from the spec; each such definition
says so in its doc comment.
-/

/-- Modelled from the spec: `tmElements_t` is defined by the TimeLib header,
which is not among the sources.  The spec (section 4.1) lists the calendar
fields year, month, day, hour, minute, second; the source assignment
`tm_data.Year = ... - 1970` shows `Year` is stored as an offset from 1970.
Fields are unbounded integers (the spec does not give widths). -/
structure tmElements where
  Second : Int
  Minute : Int
  Hour : Int
  Day : Int
  Month : Int
  Year : Int
  deriving DecidableEq

/-- The all-zero `tmElements_t`, the result of value-initialisation
(`tmElements_t()`) and of `memset(&tm, 0, sizeof(tmElements_t))`. -/
def tmElements.zero : tmElements := ⟨0, 0, 0, 0, 0, 0⟩

/-- Modelled from the spec: the `TidalEvent` class is declared in the library
header, which is not among the sources.  The spec (section 3) gives the
fields; the `.cpp` uses `epochTime`, `isHighTide`, `heightM`, `dateTime`,
`tm` and `isValid`.  `heightM` is a float in the source; floating-point
semantics are outside this embedding and no claim depends on the numeric
value, so the field carries the raw decimal string and the permissive
`String::toFloat` parse is not interpreted (its zero value corresponds to
the empty string, which `toFloat` parses as 0.0). -/
structure TidalEvent where
  isValid : Bool
  isHighTide : Bool
  heightM : String
  dateTime : String
  tm : tmElements
  epochTime : Int
  deriving DecidableEq

/-- Modelled from the spec: a default-constructed record is `isValid = false`
and all numeric fields at their zero value (spec section 3). -/
def TidalEvent.default : TidalEvent :=
  { isValid := false, isHighTide := false, heightM := "", dateTime := ""
    tm := tmElements.zero, epochTime := 0 }

instance : Inhabited TidalEvent := ⟨TidalEvent.default⟩

/-- Arduino `String::substring(left, right)`: the characters at positions
`[left, min(right, length))`, empty when `left ≥ length` (the Arduino
implementation clamps `right` to the length and returns the empty string
when `left` is past the end). -/
def substringA (s : String) (l r : Nat) : String :=
  String.mk ((s.data.take r).drop l)

/-- The characters C `isspace` accepts (ASCII locale). -/
def isSpaceC (c : Char) : Bool :=
  c = ' ' || c = '\t' || c = '\n' || c = '\x0b' || c = '\x0c' || c = '\r'

/-- Value of the maximal run of leading decimal digits, most significant
first, accumulated onto `acc`; stops at the first non-digit. -/
def digitsVal : List Char → Nat → Nat
  | c :: cs, acc => if c.isDigit then digitsVal cs (10 * acc + (c.toNat - 48)) else acc
  | [], acc => acc

/-- C `atol`, the engine of Arduino `String::toInt`: skip leading spaces,
an optional sign, then read the maximal run of leading digits; a string
with no leading digits (after sign) yields 0.  The tidal-API fields are at
most four digits, so `long` overflow cannot occur and is not modelled. -/
def atol (s : String) : Int :=
  match s.data.dropWhile isSpaceC with
  | '-' :: cs => -(digitsVal cs 0 : Int)
  | '+' :: cs => (digitsVal cs 0 : Int)
  | cs => (digitsVal cs 0 : Int)

/-- Translation of `AdmiraltyApiClient::convertFromIso8601` (lines 162-180):
extract the six calendar fields of `tm_data` from fixed character offsets
(`Y` 0-4, `M` 5-7, `D` 8-10, `H` 11-13, `MM` 14-16, `S` 17-19, fractional
seconds ignored), each via `substring(..).toInt()`, the year shifted by
1970.  The remaining contents of `tm_data` are left as passed in. -/
def AdmiraltyApiClient.convertFromIso8601 (time_string : String) (tm_data : tmElements) :
    tmElements :=
  { tm_data with
    Year := atol (substringA time_string 0 4) - 1970
    Month := atol (substringA time_string 5 7)
    Day := atol (substringA time_string 8 10)
    Hour := atol (substringA time_string 11 13)
    Minute := atol (substringA time_string 14 16)
    Second := atol (substringA time_string 17 19) }

/-- Modelled from the spec: proleptic Gregorian leap-year test
("accounting for leap years", spec section 4.1). -/
def isLeapYear (y : Int) : Bool :=
  y % 4 == 0 && (y % 100 != 0 || y % 400 == 0)

/-- Month lengths of a non-leap year, January first. -/
def monthDays : List Int := [31, 28, 31, 30, 31, 30, 31, 31, 30, 31, 30, 31]

/-- Days in a calendar year. -/
def yearDays (y : Int) : Int := if isLeapYear y then 366 else 365

/-- Modelled from the spec: days between 1970-01-01 and January 1st of the
year `1970 + yoff` ("days since epoch origin", spec section 4.1). -/
def daysBeforeYearOffset (yoff : Int) : Int :=
  if 0 ≤ yoff then ((List.range yoff.toNat).map (fun i => yearDays (1970 + i))).sum
  else -(((List.range (-yoff).toNat).map (fun i => yearDays (1970 - 1 - i))).sum)

/-- Days in the months `[1, m)` of a year (`leap` tells whether February
has 29 days); month numbers start at 1. -/
def daysInMonths (leap : Bool) (m : Int) : Int :=
  (((List.range (m - 1).toNat)).map
    (fun i => if i == 1 && leap then 29 else monthDays.getD i 0)).sum

/-- Modelled from the spec: TimeLib `makeTime`, which is not among the
sources — standard proleptic Gregorian calendar-to-epoch arithmetic, UTC,
no timezone offset: days since 1970-01-01 (leap years accounted for) times
86400, plus the time of day in seconds (spec section 4.1). -/
def makeTime (tm : tmElements) : Int :=
  (daysBeforeYearOffset tm.Year
      + daysInMonths (isLeapYear (1970 + tm.Year)) tm.Month
      + (tm.Day - 1)) * 86400
    + tm.Hour * 3600 + tm.Minute * 60 + tm.Second

/-- Modelled from the spec: TimeLib `numberOfHours`, not among the sources —
"hours computed by integer division of seconds by 3600" (spec section 4.4). -/
def numberOfHours (t : Int) : Int := t / 3600

/-- Modelled from the spec: TimeLib `numberOfMinutes`, not among the
sources — the remainder seconds converted to minutes (spec section 4.4). -/
def numberOfMinutes (t : Int) : Int := t / 60

/-- Translation of `TidalEvent::TimeFrom` (lines 256-274): value-initialise
a `tmElements_t` (all fields zero), take the absolute difference
`max(epochTime, time) - min(epochTime, time)`, put its whole hours in
`Hour` and the remainder, converted to minutes, in `Minute`. -/
def TidalEvent.TimeFrom (e : TidalEvent) (time : Int) : tmElements :=
  let diff : Int := max e.epochTime time - min e.epochTime time
  let hour := numberOfHours diff
  let hoursAsTimeT := hour * 3600
  { tmElements.zero with Hour := hour, Minute := numberOfMinutes (diff - hoursAsTimeT) }

/-- Modelled from the spec: `MAX_COUNT_TIDAL_EVENTS` is defined in the
library header, which is not among the sources; the spec (section 3) says
the capacity is a small constant, some tens of entries.  The value 30 is
used throughout; no claim depends on the exact figure. -/
def MAX_COUNT_TIDAL_EVENTS : Nat := 30

/-- The listener / store state of `AdmiraltyApiClient`: the fixed
`TidalEvent` array, the count of queryable entries (`numberEvents`), the
build cursor (`eventIndex`) and the most recent object key
(`currentKey`). -/
structure AdmiraltyApiClient where
  tidalEvents : Array TidalEvent
  numberEvents : Nat
  eventIndex : Nat
  currentKey : String
  deriving DecidableEq

/-- A freshly constructed client: the array holds `MAX_COUNT_TIDAL_EVENTS`
default-constructed events, counters zero. -/
def AdmiraltyApiClient.init : AdmiraltyApiClient :=
  { tidalEvents := Array.mkArray MAX_COUNT_TIDAL_EVENTS TidalEvent.default
    numberEvents := 0, eventIndex := 0, currentKey := "" }

/-- The C++ statement pattern `tidalEvents[eventIndex].field = ...`: rewrite
the record at the build cursor in place.  The cursor is always within the
fixed array in the source (it saturates at `MAX_COUNT_TIDAL_EVENTS - 1`),
so the out-of-range no-op of `setD` is never exercised on reachable
states. -/
def AdmiraltyApiClient.updateEvent (c : AdmiraltyApiClient) (f : TidalEvent → TidalEvent) :
    AdmiraltyApiClient :=
  { c with tidalEvents :=
      c.tidalEvents.setD c.eventIndex (f (c.tidalEvents.getD c.eventIndex TidalEvent.default)) }

/-- Translation of `AdmiraltyApiClient::startDocument` (lines 191-195). -/
def AdmiraltyApiClient.startDocument (c : AdmiraltyApiClient) : AdmiraltyApiClient :=
  { c with eventIndex := 0, numberEvents := 0 }

/-- Translation of `AdmiraltyApiClient::key` (lines 197-200). -/
def AdmiraltyApiClient.key (c : AdmiraltyApiClient) (k : String) : AdmiraltyApiClient :=
  { c with currentKey := k }

/-- Translation of `AdmiraltyApiClient::value` (lines 202-218): dispatch on
`currentKey`; for `"DateTime"` store the raw string, zero the calendar
fields (`memset`) and run the conversion on them; for `"Height"` the
source stores `value.toFloat()` (see `TidalEvent.heightM`). -/
def AdmiraltyApiClient.value (c : AdmiraltyApiClient) (v : String) : AdmiraltyApiClient :=
  if c.currentKey = "EventType" then
    c.updateEvent fun te => { te with isHighTide := v == "HighWater" }
  else if c.currentKey = "DateTime" then
    c.updateEvent fun te =>
      let te1 := { te with dateTime := v }
      let te2 := { te1 with tm := tmElements.zero }
      { te2 with tm := AdmiraltyApiClient.convertFromIso8601 v te2.tm }
  else if c.currentKey = "Height" then
    c.updateEvent fun te => { te with heightM := v }
  else
    c

/-- Translation of `AdmiraltyApiClient::endObject` (lines 224-236): set the
epoch time from the accumulated calendar fields, mark the record valid,
then advance the build cursor unless it is already at the last slot. -/
def AdmiraltyApiClient.endObject (c : AdmiraltyApiClient) : AdmiraltyApiClient :=
  let c1 := c.updateEvent fun te => { te with epochTime := makeTime te.tm, isValid := true }
  if c1.eventIndex < MAX_COUNT_TIDAL_EVENTS - 1 then
    { c1 with eventIndex := c1.eventIndex + 1 }
  else
    c1

/-- Translation of `AdmiraltyApiClient::endDocument` (lines 238-241). -/
def AdmiraltyApiClient.endDocument (c : AdmiraltyApiClient) : AdmiraltyApiClient :=
  { c with numberEvents := c.eventIndex }

/-- The structural callbacks `whitespace`, `startArray`, `endArray` and
`startObject` (lines 186-189, 220-222, 243-249) only log and change no
state. -/
def AdmiraltyApiClient.startObject (c : AdmiraltyApiClient) : AdmiraltyApiClient := c

/-- The events the external streaming JSON parser delivers to its listener
(spec sections 4.2 and 9: a closed tagged-variant event stream). -/
inductive Token where
  | docStart : Token
  | arrayStart : Token
  | objStart : Token
  | keyTok : String → Token
  | valueTok : String → Token
  | objEnd : Token
  | arrayEnd : Token
  | docEnd : Token
  | ws : Char → Token
  deriving DecidableEq

/-- Dispatch one parser event to the listener callback it invokes. -/
def AdmiraltyApiClient.processToken (c : AdmiraltyApiClient) : Token → AdmiraltyApiClient
  | Token.docStart => c.startDocument
  | Token.arrayStart => c
  | Token.objStart => c.startObject
  | Token.keyTok k => c.key k
  | Token.valueTok v => c.value v
  | Token.objEnd => c.endObject
  | Token.arrayEnd => c
  | Token.docEnd => c.endDocument
  | Token.ws _ => c

/-- Run a whole delivered event sequence through the listener. -/
def AdmiraltyApiClient.runTokens (c : AdmiraltyApiClient) (ts : List Token) :
    AdmiraltyApiClient :=
  ts.foldl AdmiraltyApiClient.processToken c

/-- The store contents a query iterates over: the entries at indices
`[0, numberEvents)` in order (the query loops run
`for (int i = 0; i < numberEvents; i++)` over `tidalEvents`). -/
def AdmiraltyApiClient.storeList (c : AdmiraltyApiClient) : List TidalEvent :=
  c.tidalEvents.toList.take c.numberEvents

/-- The loop body of `AdmiraltyApiClient::PreviousTidalEvent` (lines
119-139): walk the entries in order carrying `bestMatch`; an entry with
`epochTime <= time` replaces `bestMatch`, the first later entry breaks. -/
def prevScan (time : Int) : List TidalEvent → TidalEvent → TidalEvent
  | [], best => best
  | te :: rest, best => if te.epochTime ≤ time then prevScan time rest te else best

/-- The loop body of `AdmiraltyApiClient::NextTidalEvent` (lines 141-158):
walk the entries in order, returning the first with `epochTime > time`;
`bestMatch` stays default-constructed when none matches. -/
def nextScan (time : Int) : List TidalEvent → TidalEvent
  | [] => TidalEvent.default
  | te :: rest => if te.epochTime > time then te else nextScan time rest

/-- Translation of `AdmiraltyApiClient::PreviousTidalEvent` (lines 119-139). -/
def AdmiraltyApiClient.PreviousTidalEvent (c : AdmiraltyApiClient) (time : Int) : TidalEvent :=
  prevScan time c.storeList TidalEvent.default

/-- Translation of `AdmiraltyApiClient::NextTidalEvent` (lines 141-158). -/
def AdmiraltyApiClient.NextTidalEvent (c : AdmiraltyApiClient) (time : Int) : TidalEvent :=
  nextScan time c.storeList

/-- The store invariant of spec section 3: the queryable entries are
chronologically non-decreasing in `epochTime`. -/
def chronOrdered (l : List TidalEvent) : Prop :=
  l.Pairwise fun a b => a.epochTime ≤ b.epochTime

example : atol "2018" = 2018 := by decide
example : atol "" = 0 := by decide
example : substringA "2018-10-17T17:25:00" 5 7 = "10" := by decide

set_option maxRecDepth 100000

instance decidableChronOrdered (l : List TidalEvent) : Decidable (chronOrdered l) :=
  inferInstanceAs (Decidable (l.Pairwise _))

theorem chronOrdered_cons {a : TidalEvent} {l : List TidalEvent} :
    chronOrdered (a :: l) ↔
      (∀ b ∈ l, a.epochTime ≤ b.epochTime) ∧ chronOrdered l :=
  List.pairwise_cons

theorem runTokens_nil (c : AdmiraltyApiClient) : c.runTokens [] = c := rfl

theorem runTokens_cons (c : AdmiraltyApiClient) (tok : Token) (ts : List Token) :
    c.runTokens (tok :: ts) = (c.processToken tok).runTokens ts := rfl

theorem runTokens_append (c : AdmiraltyApiClient) (a b : List Token) :
    c.runTokens (a ++ b) = (c.runTokens a).runTokens b := by
  simp [AdmiraltyApiClient.runTokens, List.foldl_append]

/-- The `PreviousTidalEvent` loop computes the last entry at or before the
query time: on a chronologically ordered list, the scan-with-break equals
the last element of the filtered list, with the carried `bestMatch` as
fallback. -/
theorem prevScan_eq_filter (t : Int) :
    ∀ (l : List TidalEvent) (best : TidalEvent), chronOrdered l →
      prevScan t l best = (l.filter fun te => decide (te.epochTime ≤ t)).getLastD best
  | [], best, _ => rfl
  | te :: rest, best, hord => by
    obtain ⟨hhead, htail⟩ := chronOrdered_cons.mp hord
    by_cases hle : te.epochTime ≤ t
    · rw [prevScan, if_pos hle, prevScan_eq_filter t rest te htail,
        List.filter_cons_of_pos (by simpa using hle), List.getLastD_cons]
    · have hfil : rest.filter (fun te => decide (te.epochTime ≤ t)) = [] := by
        rw [List.filter_eq_nil_iff]
        intro x hx
        have hx2 := hhead x hx
        simp only [decide_eq_true_eq]
        omega
      rw [prevScan, if_neg hle, List.filter_cons_of_neg (by simpa using hle), hfil]
      rfl

/-- On a chronologically ordered list, every entry is at or before the last
entry. -/
theorem epochTime_le_getLast :
    ∀ (l : List TidalEvent) (h : l ≠ []), chronOrdered l →
      ∀ e ∈ l, e.epochTime ≤ (l.getLast h).epochTime
  | [], h, _, _, _ => absurd rfl h
  | [a], _, _, e, he => by
    rw [List.mem_singleton] at he
    rw [he]
    exact le_refl _
  | a :: b :: rest, _, hord, e, he => by
    obtain ⟨hhead, htail⟩ := chronOrdered_cons.mp hord
    rw [List.getLast_cons (List.cons_ne_nil b rest)]
    rcases List.mem_cons.mp he with hea | heb
    · rw [hea]
      exact le_trans
        (hhead _ (List.getLast_mem (List.cons_ne_nil b rest)))
        (le_refl _)
    · exact epochTime_le_getLast (b :: rest) (List.cons_ne_nil b rest) htail e heb

/-- On a chronologically ordered list holding an entry exactly at the query
time, the last at-or-before entry sits exactly at the query time. -/
theorem filter_getLastD_epochTime (l : List TidalEvent) (t : Int) (hord : chronOrdered l)
    (e : TidalEvent) (he : e ∈ l) (het : e.epochTime = t) (d : TidalEvent) :
    ((l.filter fun x => decide (x.epochTime ≤ t)).getLastD d).epochTime = t := by
  have hef : e ∈ l.filter fun x => decide (x.epochTime ≤ t) :=
    List.mem_filter.mpr ⟨he, by simp [het]⟩
  have hne : (l.filter fun x => decide (x.epochTime ≤ t)) ≠ [] := List.ne_nil_of_mem hef
  have hford : chronOrdered (l.filter fun x => decide (x.epochTime ≤ t)) :=
    List.Pairwise.filter _ hord
  rw [List.getLastD_eq_getLast?, List.getLast?_eq_getLast _ hne, Option.getD_some]
  have hlast_le :
      ((l.filter fun x => decide (x.epochTime ≤ t)).getLast hne).epochTime ≤ t := by
    have := (List.mem_filter.mp (List.getLast_mem hne)).2
    simpa using this
  have hlast_ge : t ≤ ((l.filter fun x => decide (x.epochTime ≤ t)).getLast hne).epochTime :=
    het ▸ epochTime_le_getLast _ hne hford e hef
  omega

/-- The `NextTidalEvent` loop computes the first entry strictly after the
query time. -/
theorem nextScan_eq_find (t : Int) :
    ∀ l : List TidalEvent,
      nextScan t l = (l.find? fun te => decide (te.epochTime > t)).getD TidalEvent.default
  | [] => rfl
  | te :: rest => by
    by_cases h : te.epochTime > t
    · rw [nextScan, if_pos h, List.find?_cons_of_pos _ (by simpa using h), Option.getD_some]
    · rw [nextScan, if_neg h, List.find?_cons_of_neg _ (by simpa using h),
        nextScan_eq_find t rest]

/-- The `NextTidalEvent` loop returns the untouched sentinel or an entry
strictly after the query time — never an entry exactly at it. -/
theorem nextScan_default_or_gt (t : Int) :
    ∀ l : List TidalEvent,
      nextScan t l = TidalEvent.default ∨ (nextScan t l).epochTime > t
  | [] => Or.inl rfl
  | te :: rest => by
    by_cases h : te.epochTime > t
    · rw [nextScan, if_pos h]
      exact Or.inr h
    · rw [nextScan, if_neg h]
      exact nextScan_default_or_gt t rest

theorem getD_setD_ne (a : Array TidalEvent) (i j : Nat) (v d : TidalEvent) (h : i ≠ j) :
    (a.setD i v).getD j d = a.getD j d := by
  by_cases hi : i < a.size
  · unfold Array.setD
    rw [dif_pos hi]
    unfold Array.getD
    simp only [Array.size_set]
    by_cases hj : j < a.size
    · rw [dif_pos hj, dif_pos hj, Array.get_eq_getElem, Array.get_eq_getElem]
      exact Array.get_set_ne a ⟨i, hi⟩ v hj h
    · rw [dif_neg hj, dif_neg hj]
  · unfold Array.setD
    rw [dif_neg hi]

theorem getD_setD_self (a : Array TidalEvent) (i : Nat) (v d : TidalEvent) (h : i < a.size) :
    (a.setD i v).getD i d = v := by
  unfold Array.setD
  rw [dif_pos h]
  unfold Array.getD
  simp only [Array.size_set]
  rw [dif_pos h, Array.get_eq_getElem]
  exact Array.get_set_eq a ⟨i, h⟩ v

theorem updateEvent_eventIndex (c : AdmiraltyApiClient) (f : TidalEvent → TidalEvent) :
    (c.updateEvent f).eventIndex = c.eventIndex := rfl

theorem updateEvent_numberEvents (c : AdmiraltyApiClient) (f : TidalEvent → TidalEvent) :
    (c.updateEvent f).numberEvents = c.numberEvents := rfl

theorem updateEvent_size (c : AdmiraltyApiClient) (f : TidalEvent → TidalEvent) :
    (c.updateEvent f).tidalEvents.size = c.tidalEvents.size := by
  unfold AdmiraltyApiClient.updateEvent
  exact Array.size_setD _ _ _

theorem value_eventIndex (c : AdmiraltyApiClient) (v : String) :
    (c.value v).eventIndex = c.eventIndex := by
  unfold AdmiraltyApiClient.value
  split_ifs <;> rfl

theorem value_numberEvents (c : AdmiraltyApiClient) (v : String) :
    (c.value v).numberEvents = c.numberEvents := by
  unfold AdmiraltyApiClient.value
  split_ifs <;> rfl

theorem value_size (c : AdmiraltyApiClient) (v : String) :
    (c.value v).tidalEvents.size = c.tidalEvents.size := by
  unfold AdmiraltyApiClient.value
  split_ifs <;> first | rfl | exact updateEvent_size c _

theorem endObject_eventIndex (c : AdmiraltyApiClient) :
    (c.endObject).eventIndex =
      if c.eventIndex < MAX_COUNT_TIDAL_EVENTS - 1 then c.eventIndex + 1
      else c.eventIndex := by
  simp only [AdmiraltyApiClient.endObject, updateEvent_eventIndex]
  split_ifs <;> rfl

theorem endObject_numberEvents (c : AdmiraltyApiClient) :
    (c.endObject).numberEvents = c.numberEvents := by
  simp only [AdmiraltyApiClient.endObject, updateEvent_eventIndex]
  split_ifs <;> rfl

/-- The parser events delivered for the two scalar fields of one JSON
key/value pair. -/
def fieldTokens (fields : List (String × String)) : List Token :=
  fields.flatMap fun kv => [Token.keyTok kv.1, Token.valueTok kv.2]

/-- The parser events delivered for one JSON object with the given
key/value pairs. -/
def objectTokens (fields : List (String × String)) : List Token :=
  Token.objStart :: (fieldTokens fields ++ [Token.objEnd])

/-- The three fields of a well-formed tidal-event object (spec section 6). -/
def wellFormedFields : List (String × String) :=
  [("EventType", "HighWater"), ("DateTime", "2018-10-17T17:25:00"), ("Height", "4.2")]

/-- The parser events of one complete parse session delivering the given
array of objects. -/
def sessionTokens (objs : List (List (String × String))) : List Token :=
  Token.docStart :: Token.arrayStart ::
    (objs.flatMap objectTokens ++ [Token.arrayEnd, Token.docEnd])

theorem runTokens_fieldTokens_eventIndex :
    ∀ (fields : List (String × String)) (c : AdmiraltyApiClient),
      (c.runTokens (fieldTokens fields)).eventIndex = c.eventIndex
  | [], _ => rfl
  | kv :: rest, c => by
    rw [show fieldTokens (kv :: rest)
        = Token.keyTok kv.1 :: Token.valueTok kv.2 :: fieldTokens rest from rfl,
      runTokens_cons, runTokens_cons, runTokens_fieldTokens_eventIndex rest]
    exact value_eventIndex _ _

theorem runTokens_objectTokens_eventIndex (fields : List (String × String))
    (c : AdmiraltyApiClient) :
    (c.runTokens (objectTokens fields)).eventIndex =
      if c.eventIndex < MAX_COUNT_TIDAL_EVENTS - 1 then c.eventIndex + 1
      else c.eventIndex := by
  rw [show objectTokens fields = (Token.objStart :: fieldTokens fields) ++ [Token.objEnd]
      from by simp [objectTokens]]
  rw [runTokens_append]
  rw [show (Token.objStart :: fieldTokens fields) = [Token.objStart] ++ fieldTokens fields
      from rfl, runTokens_append]
  rw [show ((c.runTokens [Token.objStart]).runTokens (fieldTokens fields)).runTokens
        [Token.objEnd]
      = ((c.runTokens [Token.objStart]).runTokens (fieldTokens fields)).endObject from rfl]
  rw [endObject_eventIndex, runTokens_fieldTokens_eventIndex]
  rfl

theorem runTokens_objs_eventIndex :
    ∀ (objs : List (List (String × String))) (c : AdmiraltyApiClient),
      c.eventIndex ≤ MAX_COUNT_TIDAL_EVENTS - 1 →
      (c.runTokens (objs.flatMap objectTokens)).eventIndex =
        min (c.eventIndex + objs.length) (MAX_COUNT_TIDAL_EVENTS - 1)
  | [], c, h => by
    rw [List.flatMap_nil, runTokens_nil, List.length_nil]
    omega
  | fields :: objs, c, h => by
    rw [List.flatMap_cons, runTokens_append,
      runTokens_objs_eventIndex objs _ (by
        rw [runTokens_objectTokens_eventIndex]
        split_ifs <;> omega),
      runTokens_objectTokens_eventIndex, List.length_cons]
    simp only [MAX_COUNT_TIDAL_EVENTS] at h ⊢
    split_ifs <;> omega

/-- The count a complete session of `objs.length` objects leaves behind:
`endDocument` copies the saturated build cursor into `numberEvents`. -/
theorem sessionTokens_numberEvents (objs : List (List (String × String))) :
    (AdmiraltyApiClient.init.runTokens (sessionTokens objs)).numberEvents =
      min objs.length (MAX_COUNT_TIDAL_EVENTS - 1) := by
  rw [show sessionTokens objs
      = [Token.docStart, Token.arrayStart] ++ objs.flatMap objectTokens
          ++ [Token.arrayEnd, Token.docEnd]
    from by simp [sessionTokens]]
  rw [runTokens_append, runTokens_append]
  rw [show ((AdmiraltyApiClient.init.runTokens [Token.docStart, Token.arrayStart]).runTokens
        (objs.flatMap objectTokens)).runTokens [Token.arrayEnd, Token.docEnd]
      = (((AdmiraltyApiClient.init.runTokens [Token.docStart, Token.arrayStart]).runTokens
        (objs.flatMap objectTokens))).endDocument from rfl]
  rw [show ((((AdmiraltyApiClient.init.runTokens [Token.docStart, Token.arrayStart]).runTokens
        (objs.flatMap objectTokens))).endDocument).numberEvents
      = (((AdmiraltyApiClient.init.runTokens [Token.docStart, Token.arrayStart]).runTokens
        (objs.flatMap objectTokens))).eventIndex from rfl]
  rw [runTokens_objs_eventIndex objs _ (by
    rw [show (AdmiraltyApiClient.init.runTokens
        [Token.docStart, Token.arrayStart]).eventIndex = 0 from rfl]
    omega)]
  rw [show (AdmiraltyApiClient.init.runTokens
      [Token.docStart, Token.arrayStart]).eventIndex = 0 from rfl]
  rw [Nat.zero_add]

/-- `numberEvents` is written only by `startDocument` (to 0) and
`endDocument` (to the build cursor): while no `docEnd` arrives, a count of
zero stays zero. -/
theorem runTokens_numberEvents_zero :
    ∀ (ts : List Token) (c : AdmiraltyApiClient), Token.docEnd ∉ ts →
      c.numberEvents = 0 → (c.runTokens ts).numberEvents = 0
  | [], _, _, h0 => h0
  | tok :: ts, c, hno, h0 => by
    have h1 : Token.docEnd ∉ ts := fun h => hno (List.mem_cons_of_mem _ h)
    have h2 : tok ≠ Token.docEnd := fun h => hno (h ▸ List.mem_cons_self _ _)
    rw [runTokens_cons]
    apply runTokens_numberEvents_zero ts _ h1
    cases tok with
    | docStart => rfl
    | arrayStart => exact h0
    | objStart => exact h0
    | keyTok k => exact h0
    | valueTok v => rw [show (AdmiraltyApiClient.processToken c (Token.valueTok v))
        = c.value v from rfl, value_numberEvents]; exact h0
    | objEnd => rw [show (AdmiraltyApiClient.processToken c Token.objEnd)
        = c.endObject from rfl, endObject_numberEvents]; exact h0
    | arrayEnd => exact h0
    | docEnd => exact absurd rfl h2
    | ws ch => exact h0

/-- With `numberEvents = 0` the query loops see no entries and return the
default-constructed sentinel. -/
theorem queries_default_of_zero (c : AdmiraltyApiClient) (h : c.numberEvents = 0) (t : Int) :
    c.PreviousTidalEvent t = TidalEvent.default ∧ c.NextTidalEvent t = TidalEvent.default := by
  have hs : c.storeList = [] := by
    simp [AdmiraltyApiClient.storeList, h]
  constructor
  · rw [AdmiraltyApiClient.PreviousTidalEvent, hs]
    rfl
  · rw [AdmiraltyApiClient.NextTidalEvent, hs]
    rfl

/-- Closed form of `TimeFrom`: hours and minutes of the absolute difference
of the two instants. -/
theorem TimeFrom_eq (e : TidalEvent) (t : Int) :
    e.TimeFrom t = { tmElements.zero with
      Hour := |e.epochTime - t| / 3600, Minute := |e.epochTime - t| % 3600 / 60 } := by
  have habs : max e.epochTime t - min e.epochTime t = |e.epochTime - t| := by
    rw [max_sub_min_eq_abs, abs_sub_comm]
  have hmod : |e.epochTime - t| - |e.epochTime - t| / 3600 * 3600
      = |e.epochTime - t| % 3600 := by omega
  simp only [TidalEvent.TimeFrom, numberOfHours, numberOfMinutes, habs, hmod]

/-- Arduino substrings taken wholly inside the first component of an
appended string ignore the appended tail. -/
theorem substringA_append (s t : String) (l r : Nat) (h : r ≤ s.length) :
    substringA (s ++ t) l r = substringA s l r := by
  unfold substringA
  rw [String.data_append, List.take_append_of_le_length h]

/-- Any suffix past position 19 — in particular a fractional-seconds
suffix — does not change the conversion. -/
theorem convertFromIso8601_append (s t : String) (tmd : tmElements) (h : 19 ≤ s.length) :
    AdmiraltyApiClient.convertFromIso8601 (s ++ t) tmd
      = AdmiraltyApiClient.convertFromIso8601 s tmd := by
  unfold AdmiraltyApiClient.convertFromIso8601
  rw [substringA_append s t 0 4 (by omega), substringA_append s t 5 7 (by omega),
    substringA_append s t 8 10 (by omega), substringA_append s t 11 13 (by omega),
    substringA_append s t 14 16 (by omega), substringA_append s t 17 19 (by omega)]

/-- An Arduino substring starting at or past the end of the string is
empty. -/
theorem substringA_past_end (s : String) (l r : Nat) (h : s.length ≤ l) :
    substringA s l r = "" := by
  unfold substringA
  have h2 : s.data.length ≤ l := h
  rw [List.drop_eq_nil_of_le (by rw [List.length_take]; omega)]

/-- Standard civil-calendar-to-epoch conversion, written independently of
`makeTime` (era / day-of-era arithmetic on a year shifted so it starts in
March) as the test oracle the spec calls "standard proleptic Gregorian UTC
calendar-to-epoch arithmetic". -/
def epochOfCalendar (y m d h mi s : Int) : Int :=
  let yy := if m ≤ 2 then y - 1 else y
  let era := (if 0 ≤ yy then yy else yy - 399) / 400
  let yoe := yy - era * 400
  let mp := (m + 9) % 12
  let doy := (153 * mp + 2) / 5 + d - 1
  let doe := yoe * 365 + yoe / 4 - yoe / 100 + doy
  (era * 146097 + doe - 719468) * 86400 + h * 3600 + mi * 60 + s

/-- An event at epoch time 100 (spec section 8 boundary scenario). -/
def e100 : TidalEvent := { TidalEvent.default with isValid := true, epochTime := 100 }

/-- An event at epoch time 200 (spec section 8 boundary scenario). -/
def e200 : TidalEvent := { TidalEvent.default with isValid := true, epochTime := 200 }

/-- An event at epoch time 300 (spec section 8 boundary scenario). -/
def e300 : TidalEvent := { TidalEvent.default with isValid := true, epochTime := 300 }

/-- A client whose store holds the three boundary-scenario events. -/
def exampleClient : AdmiraltyApiClient :=
  { tidalEvents := #[e100, e200, e300], numberEvents := 3, eventIndex := 0, currentKey := "" }

/-- The kind of failure spec section 4.1 prescribes for the conversion. -/
inductive TimestampError where
  | MalformedTimestamp : TimestampError
  deriving DecidableEq

/-- A non-empty all-digit string, the spec's "numeric" substring. -/
def allDigits (s : String) : Bool :=
  !s.data.isEmpty && s.data.all Char.isDigit

/-- The conversion as the spec's words describe it (section 4.1), for
comparison with the source's `convertFromIso8601`: fail with
`MalformedTimestamp` when the string is shorter than 19 characters or any
fixed-offset substring is non-numeric, otherwise produce the fields. -/
def convertFromIso8601Spec (time_string : String) (tm_data : tmElements) :
    Except TimestampError tmElements :=
  if time_string.length < 19 then Except.error TimestampError.MalformedTimestamp
  else if !(allDigits (substringA time_string 0 4)
      && allDigits (substringA time_string 5 7)
      && allDigits (substringA time_string 8 10)
      && allDigits (substringA time_string 11 13)
      && allDigits (substringA time_string 14 16)
      && allDigits (substringA time_string 17 19)) then
    Except.error TimestampError.MalformedTimestamp
  else
    Except.ok (AdmiraltyApiClient.convertFromIso8601 time_string tm_data)

/-- The parser events of a stream that is cut off in the middle of a third
object: two complete objects, then an object start and one field, and
neither the object boundary nor the document end ever arrive. -/
def truncatedTokens : List Token :=
  [Token.docStart, Token.arrayStart] ++ objectTokens wellFormedFields
    ++ objectTokens wellFormedFields
    ++ [Token.objStart, Token.keyTok "EventType", Token.valueTok "HighWater"]

/-- A client state in which the build cursor is pinned at the last slot and
the declared count, as the claim's premise has it, is the full capacity. -/
def fullClient : AdmiraltyApiClient :=
  { tidalEvents := Array.mkArray MAX_COUNT_TIDAL_EVENTS TidalEvent.default
    numberEvents := MAX_COUNT_TIDAL_EVENTS
    eventIndex := MAX_COUNT_TIDAL_EVENTS - 1
    currentKey := "" }

/-- A client about to process a `DateTime` value into a slot that still
holds stale calendar fields from an earlier record. -/
def staleClient : AdmiraltyApiClient :=
  { tidalEvents := #[{ TidalEvent.default with tm := ⟨7, 8, 9, 10, 11, 12⟩ }]
    numberEvents := 0, eventIndex := 0, currentKey := "DateTime" }

/-- `endObject` rewrites the record at the build cursor to its finalized
form: epoch time computed from the calendar fields, validity set. -/
theorem endObject_getD (c : AdmiraltyApiClient) (h : c.eventIndex < c.tidalEvents.size) :
    (c.endObject).tidalEvents.getD c.eventIndex TidalEvent.default
      = { c.tidalEvents.getD c.eventIndex TidalEvent.default with
          epochTime := makeTime (c.tidalEvents.getD c.eventIndex TidalEvent.default).tm
          isValid := true } := by
  have harr : (c.endObject).tidalEvents = (c.updateEvent
      (fun te => { te with epochTime := makeTime te.tm, isValid := true })).tidalEvents := by
    simp only [AdmiraltyApiClient.endObject]
    split_ifs <;> rfl
  rw [harr]
  exact getD_setD_self _ _ _ _ h

/-- C1: on a store whose entries are chronologically non-decreasing,
`PreviousTidalEvent(t)` returns the last stored entry with `epochTime ≤ t`
(the greatest entry not after `t`), and when no entry qualifies — the
store is empty or every entry lies after `t`, so the filtered list is
empty — it returns the default-constructed sentinel, whose `isValid` is
false and whose numeric fields are at their zero values. -/
theorem previousTidalEvent_last_at_or_before
    (c : AdmiraltyApiClient) (t : Int) (hord : chronOrdered c.storeList) :
    c.PreviousTidalEvent t
        = (c.storeList.filter fun te => decide (te.epochTime ≤ t)).getLastD TidalEvent.default
      ∧ TidalEvent.default.isValid = false
      ∧ TidalEvent.default.epochTime = 0
      ∧ TidalEvent.default.tm = tmElements.zero
      ∧ TidalEvent.default.isHighTide = false
      ∧ TidalEvent.default.heightM = "" :=
  ⟨prevScan_eq_filter t c.storeList TidalEvent.default hord, rfl, rfl, rfl, rfl, rfl⟩

/-- C1 witness: the characterisation evaluated on the three-event
boundary-scenario store at query time 150. -/
theorem previousTidalEvent_last_at_or_before_witness :
    exampleClient.PreviousTidalEvent 150
        = (exampleClient.storeList.filter fun te => decide (te.epochTime ≤ 150)).getLastD
            TidalEvent.default
      ∧ TidalEvent.default.isValid = false
      ∧ TidalEvent.default.epochTime = 0
      ∧ TidalEvent.default.tm = tmElements.zero
      ∧ TidalEvent.default.isHighTide = false
      ∧ TidalEvent.default.heightM = "" :=
  previousTidalEvent_last_at_or_before exampleClient 150 (by decide)

/-- C2: on a chronologically ordered store, `NextTidalEvent(t)` returns the
first stored entry with `epochTime > t` and the sentinel when none exists;
the result is either the sentinel or strictly after `t`, so an entry
exactly at `t` is never returned — while `PreviousTidalEvent(t)` does
return an entry at `t` whenever one is stored.  On the store with epoch
times `[100, 200, 300]`: `PreviousTidalEvent 200` is the event at 200,
`NextTidalEvent 200` the event at 300, and `PreviousTidalEvent 50` and
`NextTidalEvent 350` are the invalid sentinel. -/
theorem nextTidalEvent_first_strictly_after
    (c : AdmiraltyApiClient) (t : Int) (hord : chronOrdered c.storeList) :
    c.NextTidalEvent t
        = (c.storeList.find? fun te => decide (te.epochTime > t)).getD TidalEvent.default
      ∧ (c.NextTidalEvent t = TidalEvent.default ∨ (c.NextTidalEvent t).epochTime > t)
      ∧ ((∃ e ∈ c.storeList, e.epochTime = t) → (c.PreviousTidalEvent t).epochTime = t)
      ∧ exampleClient.PreviousTidalEvent 200 = e200
      ∧ exampleClient.NextTidalEvent 200 = e300
      ∧ exampleClient.PreviousTidalEvent 50 = TidalEvent.default
      ∧ exampleClient.NextTidalEvent 350 = TidalEvent.default := by
  refine ⟨nextScan_eq_find t c.storeList, nextScan_default_or_gt t c.storeList, ?_,
    by decide, by decide, by decide, by decide⟩
  rintro ⟨e, he, het⟩
  rw [AdmiraltyApiClient.PreviousTidalEvent,
    prevScan_eq_filter t c.storeList TidalEvent.default hord]
  exact filter_getLastD_epochTime c.storeList t hord e he het TidalEvent.default

/-- C2 witness: the characterisation evaluated on the three-event
boundary-scenario store at query time 200, with the entry-at-200 premise
discharged by the stored event `e200`. -/
theorem nextTidalEvent_first_strictly_after_witness :
    (exampleClient.PreviousTidalEvent 200).epochTime = 200
      ∧ exampleClient.NextTidalEvent 200
          = (exampleClient.storeList.find? fun te => decide (te.epochTime > 200)).getD
              TidalEvent.default
      ∧ exampleClient.PreviousTidalEvent 200 = e200
      ∧ exampleClient.NextTidalEvent 200 = e300
      ∧ exampleClient.PreviousTidalEvent 50 = TidalEvent.default
      ∧ exampleClient.NextTidalEvent 350 = TidalEvent.default :=
  ⟨(nextTidalEvent_first_strictly_after exampleClient 200 (by decide)).2.2.1
      ⟨e200, by decide, by decide⟩,
    (nextTidalEvent_first_strictly_after exampleClient 200 (by decide)).1,
    (nextTidalEvent_first_strictly_after exampleClient 200 (by decide)).2.2.2.1,
    (nextTidalEvent_first_strictly_after exampleClient 200 (by decide)).2.2.2.2.1,
    (nextTidalEvent_first_strictly_after exampleClient 200 (by decide)).2.2.2.2.2.1,
    (nextTidalEvent_first_strictly_after exampleClient 200 (by decide)).2.2.2.2.2.2⟩

/-- C3 counterexample: a complete session of `MAX_COUNT_TIDAL_EVENTS + 5`
well-formed objects does not end with `count = MAX_COUNT_TIDAL_EVENTS` —
the build cursor saturates at the last slot, so the count is
`MAX_COUNT_TIDAL_EVENTS - 1 = 29`. -/
theorem sessionCount_neq_capacity :
    (AdmiraltyApiClient.init.runTokens
        (sessionTokens (List.replicate (MAX_COUNT_TIDAL_EVENTS + 5) wellFormedFields))).numberEvents
      ≠ MAX_COUNT_TIDAL_EVENTS := by decide

/-- C3 (amended): a complete parse session that finalizes the given objects
ends with `count = min N (MAX_COUNT_TIDAL_EVENTS - 1)`: the cap is one
less than the capacity because the build cursor pins at the last slot, so
overflow sessions report `MAX_COUNT_TIDAL_EVENTS - 1` finalized records. -/
theorem sessionCount_saturates_below_capacity (objs : List (List (String × String))) :
    (AdmiraltyApiClient.init.runTokens (sessionTokens objs)).numberEvents
      = min objs.length (MAX_COUNT_TIDAL_EVENTS - 1) :=
  sessionTokens_numberEvents objs

/-- C4 counterexample: in the truncated stream two objects were fully
finalized (slots 0 and 1 hold valid records) before the cut, yet the
session ends with `count = 0`, not 2 — `numberEvents` is only assigned on
document end, which never arrives. -/
theorem truncated_session_count_cex :
    ((AdmiraltyApiClient.init.runTokens truncatedTokens).tidalEvents.getD 0
        TidalEvent.default).isValid = true
      ∧ ((AdmiraltyApiClient.init.runTokens truncatedTokens).tidalEvents.getD 1
        TidalEvent.default).isValid = true
      ∧ (AdmiraltyApiClient.init.runTokens truncatedTokens).numberEvents ≠ 2 := by decide

/-- C4 (amended): when the stream ends mid-object and `docEnd` never
arrives, the session leaves `count = 0` — its session-start value, not the
number of records finalized before the truncation — and therefore no
record at all, finalized or partial, is exposed: every query returns the
invalid sentinel. -/
theorem truncated_session_count_zero (rest : List Token) (c : AdmiraltyApiClient) (t : Int)
    (hno : Token.docEnd ∉ rest) :
    (c.runTokens (Token.docStart :: rest)).numberEvents = 0
      ∧ (c.runTokens (Token.docStart :: rest)).PreviousTidalEvent t = TidalEvent.default
      ∧ (c.runTokens (Token.docStart :: rest)).NextTidalEvent t = TidalEvent.default := by
  have h0 : (c.runTokens (Token.docStart :: rest)).numberEvents = 0 := by
    rw [runTokens_cons]
    exact runTokens_numberEvents_zero rest _ hno rfl
  exact ⟨h0, (queries_default_of_zero _ h0 t).1, (queries_default_of_zero _ h0 t).2⟩

/-- C4 witness: the truncated two-and-a-half-object stream, run from a
fresh client, queried at time 0. -/
theorem truncated_session_count_zero_witness :
    (AdmiraltyApiClient.init.runTokens truncatedTokens).numberEvents = 0
      ∧ (AdmiraltyApiClient.init.runTokens truncatedTokens).PreviousTidalEvent 0
          = TidalEvent.default
      ∧ (AdmiraltyApiClient.init.runTokens truncatedTokens).NextTidalEvent 0
          = TidalEvent.default :=
  truncated_session_count_zero
    ([Token.arrayStart] ++ objectTokens wellFormedFields ++ objectTokens wellFormedFields
      ++ [Token.objStart, Token.keyTok "EventType", Token.valueTok "HighWater"])
    AdmiraltyApiClient.init 0 (by decide)

/-- C5: converting `"2018-10-17T17:25:00"` extracts the fields at the fixed
offsets — year 2018 (stored as the offset from 1970), month 10, day 17,
hour 17, minute 25, second 0 — the finalized record's epoch time is the
value of the independent standard proleptic-Gregorian oracle
(1539797100), and a suffix past position 19, such as fractional seconds,
never changes the conversion. -/
theorem iso8601_conversion_fixed_offsets (s suffix : String) (tmd : tmElements)
    (h : 19 ≤ s.length) :
    (AdmiraltyApiClient.convertFromIso8601 "2018-10-17T17:25:00" tmElements.zero).Year
        = 2018 - 1970
      ∧ (AdmiraltyApiClient.convertFromIso8601 "2018-10-17T17:25:00" tmElements.zero).Month = 10
      ∧ (AdmiraltyApiClient.convertFromIso8601 "2018-10-17T17:25:00" tmElements.zero).Day = 17
      ∧ (AdmiraltyApiClient.convertFromIso8601 "2018-10-17T17:25:00" tmElements.zero).Hour = 17
      ∧ (AdmiraltyApiClient.convertFromIso8601 "2018-10-17T17:25:00" tmElements.zero).Minute = 25
      ∧ (AdmiraltyApiClient.convertFromIso8601 "2018-10-17T17:25:00" tmElements.zero).Second = 0
      ∧ makeTime (AdmiraltyApiClient.convertFromIso8601 "2018-10-17T17:25:00" tmElements.zero)
          = epochOfCalendar 2018 10 17 17 25 0
      ∧ makeTime (AdmiraltyApiClient.convertFromIso8601 "2018-10-17T17:25:00" tmElements.zero)
          = 1539797100
      ∧ ((AdmiraltyApiClient.init.runTokens
            [Token.docStart, Token.arrayStart, Token.objStart, Token.keyTok "DateTime",
             Token.valueTok "2018-10-17T17:25:00", Token.objEnd, Token.arrayEnd,
             Token.docEnd]).tidalEvents.getD 0 TidalEvent.default).epochTime = 1539797100
      ∧ AdmiraltyApiClient.convertFromIso8601 (s ++ suffix) tmd
          = AdmiraltyApiClient.convertFromIso8601 s tmd :=
  ⟨by decide, by decide, by decide, by decide, by decide, by decide, by decide, by decide,
    by decide, convertFromIso8601_append s suffix tmd h⟩

/-- C5 witness: the timestamp of the spec's round-trip property with a
fractional-seconds suffix appended. -/
theorem iso8601_conversion_fixed_offsets_witness :
    (AdmiraltyApiClient.convertFromIso8601 "2018-10-17T17:25:00" tmElements.zero).Year
        = 2018 - 1970
      ∧ (AdmiraltyApiClient.convertFromIso8601 "2018-10-17T17:25:00" tmElements.zero).Month = 10
      ∧ (AdmiraltyApiClient.convertFromIso8601 "2018-10-17T17:25:00" tmElements.zero).Day = 17
      ∧ (AdmiraltyApiClient.convertFromIso8601 "2018-10-17T17:25:00" tmElements.zero).Hour = 17
      ∧ (AdmiraltyApiClient.convertFromIso8601 "2018-10-17T17:25:00" tmElements.zero).Minute = 25
      ∧ (AdmiraltyApiClient.convertFromIso8601 "2018-10-17T17:25:00" tmElements.zero).Second = 0
      ∧ makeTime (AdmiraltyApiClient.convertFromIso8601 "2018-10-17T17:25:00" tmElements.zero)
          = epochOfCalendar 2018 10 17 17 25 0
      ∧ makeTime (AdmiraltyApiClient.convertFromIso8601 "2018-10-17T17:25:00" tmElements.zero)
          = 1539797100
      ∧ ((AdmiraltyApiClient.init.runTokens
            [Token.docStart, Token.arrayStart, Token.objStart, Token.keyTok "DateTime",
             Token.valueTok "2018-10-17T17:25:00", Token.objEnd, Token.arrayEnd,
             Token.docEnd]).tidalEvents.getD 0 TidalEvent.default).epochTime = 1539797100
      ∧ AdmiraltyApiClient.convertFromIso8601 ("2018-10-17T17:25:00" ++ ".123") tmElements.zero
          = AdmiraltyApiClient.convertFromIso8601 "2018-10-17T17:25:00" tmElements.zero :=
  iso8601_conversion_fixed_offsets "2018-10-17T17:25:00" ".123" tmElements.zero (by decide)

/-- C6: `TimeFrom` depends only on the absolute difference of the two
instants: equidistant query times give the same result, the hours are the
integer division of the difference by 3600, the minutes come from the
remainder, the operation is symmetric under swapping the event time and
the query time, and a difference of 1800 seconds yields 0 hours and 30
minutes on either side. -/
theorem timeFrom_symmetric_decomposition (e : TidalEvent) (d t : Int) :
    e.TimeFrom (e.epochTime + d) = e.TimeFrom (e.epochTime - d)
      ∧ (e.TimeFrom (e.epochTime + d)).Hour = |d| / 3600
      ∧ (e.TimeFrom (e.epochTime + d)).Minute = |d| % 3600 / 60
      ∧ e.TimeFrom t = TidalEvent.TimeFrom { e with epochTime := t } e.epochTime
      ∧ (e.TimeFrom (e.epochTime + 1800)).Hour = 0
      ∧ (e.TimeFrom (e.epochTime + 1800)).Minute = 30
      ∧ (e.TimeFrom (e.epochTime - 1800)).Hour = 0
      ∧ (e.TimeFrom (e.epochTime - 1800)).Minute = 30 := by
  have habs1 : |e.epochTime - (e.epochTime + d)| = |d| := by
    rw [show e.epochTime - (e.epochTime + d) = -d by ring, abs_neg]
  have habs2 : |e.epochTime - (e.epochTime - d)| = |d| := by
    rw [show e.epochTime - (e.epochTime - d) = d by ring]
  have habs3 : |e.epochTime - (e.epochTime + 1800)| = 1800 := by
    rw [show e.epochTime - (e.epochTime + 1800) = -1800 by ring]
    norm_num
  have habs4 : |e.epochTime - (e.epochTime - 1800)| = 1800 := by
    rw [show e.epochTime - (e.epochTime - 1800) = 1800 by ring]
    norm_num
  refine ⟨?_, ?_, ?_, ?_, ?_, ?_, ?_, ?_⟩
  · rw [TimeFrom_eq, TimeFrom_eq, habs1, habs2]
  · rw [TimeFrom_eq, habs1]
  · rw [TimeFrom_eq, habs1]
  · rw [TimeFrom_eq, TimeFrom_eq,
      show ({ e with epochTime := t } : TidalEvent).epochTime = t from rfl, abs_sub_comm]
  · rw [TimeFrom_eq, habs3]
    decide
  · rw [TimeFrom_eq, habs3]
    decide
  · rw [TimeFrom_eq, habs4]
    decide
  · rw [TimeFrom_eq, habs4]
    decide

/-- C9: the structure `TimeFrom` returns has every field other than `Hour`
and `Minute` at zero, and `Hour` is the total number of whole hours of the
absolute difference, not reduced modulo 24: a difference of more than one
day leaves `Hour ≥ 24` while `Day` stays 0. -/
theorem timeFrom_hours_not_reduced (e : TidalEvent) (t : Int) :
    (e.TimeFrom t).Second = 0
      ∧ (e.TimeFrom t).Day = 0
      ∧ (e.TimeFrom t).Month = 0
      ∧ (e.TimeFrom t).Year = 0
      ∧ (e.TimeFrom t).Hour = |e.epochTime - t| / 3600
      ∧ (86400 < |e.epochTime - t| → 24 ≤ (e.TimeFrom t).Hour ∧ (e.TimeFrom t).Day = 0) := by
  rw [TimeFrom_eq]
  refine ⟨rfl, rfl, rfl, rfl, rfl, fun h => ⟨?_, rfl⟩⟩
  generalize hx : |e.epochTime - t| = x at h ⊢
  show 24 ≤ x / 3600
  omega

/-- C9 witness: an event at epoch 0 queried 25 hours later — the
difference exceeds one day, the hour field reads 25, the day field 0. -/
theorem timeFrom_hours_not_reduced_witness :
    86400 < |TidalEvent.default.epochTime - 90000|
      ∧ 24 ≤ (TidalEvent.default.TimeFrom 90000).Hour
      ∧ (TidalEvent.default.TimeFrom 90000).Day = 0
      ∧ (TidalEvent.default.TimeFrom 90000).Second = 0 :=
  ⟨by decide,
    ((timeFrom_hours_not_reduced TidalEvent.default 90000).2.2.2.2.2 (by decide)).1,
    ((timeFrom_hours_not_reduced TidalEvent.default 90000).2.2.2.2.2 (by decide)).2,
    (timeFrom_hours_not_reduced TidalEvent.default 90000).1⟩

/-- C7 counterexample: on the empty string — shorter than 19 characters —
the spec-described conversion fails with `MalformedTimestamp`, but the
source conversion does not fail: it silently produces calendar fields,
all zero except the 1970-shifted year. -/
theorem conversion_no_failure_cex :
    convertFromIso8601Spec "" tmElements.zero
        = Except.error TimestampError.MalformedTimestamp
      ∧ AdmiraltyApiClient.convertFromIso8601 "" tmElements.zero
          = { tmElements.zero with Year := -1970 } :=
  ⟨rfl, rfl⟩

/-- C7 (amended): for a string shorter than 19 characters the source
conversion does not fail in any way — it silently produces calendar
fields, each substring that lies past the end of the string parsing to 0
(the clamped Arduino substring is empty and `toInt` of an empty string is
0), the year field to `0 - 1970` when even the year digits are missing. -/
theorem conversion_silently_zero_fills (s : String) (tmd : tmElements)
    (h17 : s.length ≤ 17) :
    (AdmiraltyApiClient.convertFromIso8601 s tmd).Second = 0
      ∧ (s.length ≤ 14 → (AdmiraltyApiClient.convertFromIso8601 s tmd).Minute = 0)
      ∧ (s.length ≤ 11 → (AdmiraltyApiClient.convertFromIso8601 s tmd).Hour = 0)
      ∧ (s.length ≤ 8 → (AdmiraltyApiClient.convertFromIso8601 s tmd).Day = 0)
      ∧ (s.length ≤ 5 → (AdmiraltyApiClient.convertFromIso8601 s tmd).Month = 0)
      ∧ (s.length = 0 → (AdmiraltyApiClient.convertFromIso8601 s tmd).Year = -1970) := by
  unfold AdmiraltyApiClient.convertFromIso8601
  refine ⟨?_, fun h => ?_, fun h => ?_, fun h => ?_, fun h => ?_, fun h => ?_⟩
  · rw [show (({ tmd with
        Year := atol (substringA s 0 4) - 1970, Month := atol (substringA s 5 7)
        Day := atol (substringA s 8 10), Hour := atol (substringA s 11 13)
        Minute := atol (substringA s 14 16)
        Second := atol (substringA s 17 19) } : tmElements)).Second
      = atol (substringA s 17 19) from rfl, substringA_past_end s 17 19 h17]
    rfl
  · rw [show (({ tmd with
        Year := atol (substringA s 0 4) - 1970, Month := atol (substringA s 5 7)
        Day := atol (substringA s 8 10), Hour := atol (substringA s 11 13)
        Minute := atol (substringA s 14 16)
        Second := atol (substringA s 17 19) } : tmElements)).Minute
      = atol (substringA s 14 16) from rfl, substringA_past_end s 14 16 h]
    rfl
  · rw [show (({ tmd with
        Year := atol (substringA s 0 4) - 1970, Month := atol (substringA s 5 7)
        Day := atol (substringA s 8 10), Hour := atol (substringA s 11 13)
        Minute := atol (substringA s 14 16)
        Second := atol (substringA s 17 19) } : tmElements)).Hour
      = atol (substringA s 11 13) from rfl, substringA_past_end s 11 13 h]
    rfl
  · rw [show (({ tmd with
        Year := atol (substringA s 0 4) - 1970, Month := atol (substringA s 5 7)
        Day := atol (substringA s 8 10), Hour := atol (substringA s 11 13)
        Minute := atol (substringA s 14 16)
        Second := atol (substringA s 17 19) } : tmElements)).Day
      = atol (substringA s 8 10) from rfl, substringA_past_end s 8 10 h]
    rfl
  · rw [show (({ tmd with
        Year := atol (substringA s 0 4) - 1970, Month := atol (substringA s 5 7)
        Day := atol (substringA s 8 10), Hour := atol (substringA s 11 13)
        Minute := atol (substringA s 14 16)
        Second := atol (substringA s 17 19) } : tmElements)).Month
      = atol (substringA s 5 7) from rfl, substringA_past_end s 5 7 h]
    rfl
  · rw [show (({ tmd with
        Year := atol (substringA s 0 4) - 1970, Month := atol (substringA s 5 7)
        Day := atol (substringA s 8 10), Hour := atol (substringA s 11 13)
        Minute := atol (substringA s 14 16)
        Second := atol (substringA s 17 19) } : tmElements)).Year
      = atol (substringA s 0 4) - 1970 from rfl,
      substringA_past_end s 0 4 (by omega)]
    decide

/-- C7 witness: the empty string, shorter than every offset. -/
theorem conversion_silently_zero_fills_witness :
    (AdmiraltyApiClient.convertFromIso8601 "" tmElements.zero).Second = 0
      ∧ (AdmiraltyApiClient.convertFromIso8601 "" tmElements.zero).Minute = 0
      ∧ (AdmiraltyApiClient.convertFromIso8601 "" tmElements.zero).Hour = 0
      ∧ (AdmiraltyApiClient.convertFromIso8601 "" tmElements.zero).Day = 0
      ∧ (AdmiraltyApiClient.convertFromIso8601 "" tmElements.zero).Month = 0
      ∧ (AdmiraltyApiClient.convertFromIso8601 "" tmElements.zero).Year = -1970 :=
  ⟨(conversion_silently_zero_fills "" tmElements.zero (by decide)).1,
    (conversion_silently_zero_fills "" tmElements.zero (by decide)).2.1 (by decide),
    (conversion_silently_zero_fills "" tmElements.zero (by decide)).2.2.1 (by decide),
    (conversion_silently_zero_fills "" tmElements.zero (by decide)).2.2.2.1 (by decide),
    (conversion_silently_zero_fills "" tmElements.zero (by decide)).2.2.2.2.1 (by decide),
    (conversion_silently_zero_fills "" tmElements.zero (by decide)).2.2.2.2.2 (by decide)⟩

/-- C8 counterexample: in the state the claim quantifies over — count at
full capacity, build cursor pinned at the last slot — finalizing one more
record does not leave every entry of `[0, MAX_COUNT_TIDAL_EVENTS)`
unchanged: the entry at the last slot is overwritten. -/
theorem overflow_not_discarded_cex :
    fullClient.numberEvents = MAX_COUNT_TIDAL_EVENTS
      ∧ (fullClient.endObject).tidalEvents.getD (MAX_COUNT_TIDAL_EVENTS - 1) TidalEvent.default
        ≠ fullClient.tidalEvents.getD (MAX_COUNT_TIDAL_EVENTS - 1) TidalEvent.default := by
  decide

/-- C8 (amended): once the build cursor is pinned at the last slot,
processing a further value or finalization leaves every entry of
`[0, MAX_COUNT_TIDAL_EVENTS - 1)` unchanged, while the entry at slot
`MAX_COUNT_TIDAL_EVENTS - 1` is overwritten by the finalization of the
current build — overflow records are not discarded, they replace the last
stored entry. -/
theorem overflow_overwrites_last_slot (c : AdmiraltyApiClient) (v : String) (i : Nat)
    (hpin : c.eventIndex = MAX_COUNT_TIDAL_EVENTS - 1)
    (hi : i < MAX_COUNT_TIDAL_EVENTS - 1)
    (hsize : c.tidalEvents.size = MAX_COUNT_TIDAL_EVENTS) :
    (c.endObject).tidalEvents.getD i TidalEvent.default
        = c.tidalEvents.getD i TidalEvent.default
      ∧ (c.value v).tidalEvents.getD i TidalEvent.default
        = c.tidalEvents.getD i TidalEvent.default
      ∧ (c.endObject).tidalEvents.getD (MAX_COUNT_TIDAL_EVENTS - 1) TidalEvent.default
        = { c.tidalEvents.getD (MAX_COUNT_TIDAL_EVENTS - 1) TidalEvent.default with
            epochTime := makeTime
              (c.tidalEvents.getD (MAX_COUNT_TIDAL_EVENTS - 1) TidalEvent.default).tm
            isValid := true } := by
  have hm : MAX_COUNT_TIDAL_EVENTS = 30 := rfl
  have harr : (c.endObject).tidalEvents = (c.updateEvent
      (fun te => { te with epochTime := makeTime te.tm, isValid := true })).tidalEvents := by
    simp only [AdmiraltyApiClient.endObject]
    split_ifs <;> rfl
  refine ⟨?_, ?_, ?_⟩
  · rw [harr]
    exact getD_setD_ne c.tidalEvents c.eventIndex i _ _ (by omega)
  · unfold AdmiraltyApiClient.value
    split_ifs <;>
      first
        | rfl
        | exact getD_setD_ne c.tidalEvents c.eventIndex i _ _ (by omega)
  · have h3 := endObject_getD c (by omega)
    rw [hpin] at h3
    exact h3

/-- C8 witness: a pinned full client processing one more height value and
finalization; slot 3 is untouched, slot 29 is rewritten. -/
theorem overflow_overwrites_last_slot_witness :
    (fullClient.endObject).tidalEvents.getD 3 TidalEvent.default
        = fullClient.tidalEvents.getD 3 TidalEvent.default
      ∧ (fullClient.value "9.9").tidalEvents.getD 3 TidalEvent.default
        = fullClient.tidalEvents.getD 3 TidalEvent.default
      ∧ (fullClient.endObject).tidalEvents.getD (MAX_COUNT_TIDAL_EVENTS - 1) TidalEvent.default
        = { fullClient.tidalEvents.getD (MAX_COUNT_TIDAL_EVENTS - 1) TidalEvent.default with
            epochTime := makeTime
              (fullClient.tidalEvents.getD (MAX_COUNT_TIDAL_EVENTS - 1) TidalEvent.default).tm
            isValid := true } :=
  overflow_overwrites_last_slot fullClient "9.9" 3 (by decide) (by decide) (by decide)

/-- C10: when a value arrives under the key `"DateTime"`, the record under
construction gets its calendar fields zeroed and then set to the
conversion of the new string: the stored fields equal the conversion of
the most recent `DateTime` string applied to all-zero fields — no stale
field of a record previously assembled in the slot survives — the raw
string is retained, and the epoch time computed at the following object
end is exactly `makeTime` of that fresh conversion. -/
theorem dateTime_zeroes_then_converts (c : AdmiraltyApiClient) (v : String)
    (hkey : c.currentKey = "DateTime") (hidx : c.eventIndex < c.tidalEvents.size) :
    ((c.value v).tidalEvents.getD c.eventIndex TidalEvent.default).tm
        = AdmiraltyApiClient.convertFromIso8601 v tmElements.zero
      ∧ ((c.value v).tidalEvents.getD c.eventIndex TidalEvent.default).dateTime = v
      ∧ (((c.value v).endObject).tidalEvents.getD c.eventIndex TidalEvent.default).epochTime
        = makeTime (AdmiraltyApiClient.convertFromIso8601 v tmElements.zero) := by
  have hvalue : c.value v = c.updateEvent (fun te =>
      { te with dateTime := v
                tm := AdmiraltyApiClient.convertFromIso8601 v tmElements.zero }) := by
    unfold AdmiraltyApiClient.value
    rw [hkey]
    rw [if_neg (by decide), if_pos rfl]
  have hget : (c.value v).tidalEvents.getD c.eventIndex TidalEvent.default
      = { c.tidalEvents.getD c.eventIndex TidalEvent.default with
          dateTime := v, tm := AdmiraltyApiClient.convertFromIso8601 v tmElements.zero } := by
    rw [hvalue]
    exact getD_setD_self _ _ _ _ hidx
  have hidx1 : (c.value v).eventIndex < (c.value v).tidalEvents.size := by
    rw [value_size, value_eventIndex]
    exact hidx
  have h3 := endObject_getD (c.value v) hidx1
  rw [value_eventIndex] at h3
  refine ⟨by rw [hget], by rw [hget], ?_⟩
  rw [h3, hget]

/-- C10 witness: a slot holding stale calendar fields receives a fresh
`DateTime` value; the stored fields are exactly the conversion of the new
string from zero. -/
theorem dateTime_zeroes_then_converts_witness :
    ((staleClient.value "2019-01-02T03:04:05").tidalEvents.getD 0 TidalEvent.default).tm
        = AdmiraltyApiClient.convertFromIso8601 "2019-01-02T03:04:05" tmElements.zero
      ∧ ((staleClient.value "2019-01-02T03:04:05").tidalEvents.getD 0
          TidalEvent.default).dateTime = "2019-01-02T03:04:05"
      ∧ (((staleClient.value "2019-01-02T03:04:05").endObject).tidalEvents.getD 0
          TidalEvent.default).epochTime
        = makeTime (AdmiraltyApiClient.convertFromIso8601 "2019-01-02T03:04:05"
            tmElements.zero) :=
  dateTime_zeroes_then_converts staleClient "2019-01-02T03:04:05" (by decide) (by decide)
